import Mathlib

/-!
Verification development for the `OrderNavigationSystem` class of
`src/navigation.py` (repository `fotoalin/navigation_system`).

The Python class is embedded shallowly:

* an item dictionary `{"id": ..., "name": ..., "state": ..., "handlers": [...]}`
  becomes the structure `Item`, with the `state` values `None`, `"view"`,
  `"completed"` rendered as `ItemState.unset`, `ItemState.viewed`,
  `ItemState.completed`;
* the object state of the class (fields `data`, `current_group`,
  `current_order`, `group_navigation`, `handler_name`, `auto_print`)
  becomes the structure `Nav`, and each mutating method becomes a function
  `Nav → Nav` (the in-place mutation of the shared `data` list is rendered
  as functional update of the `data` field);
* Python `for i in range(a, len)` / `range(a-1, -1, -1)` index scans become
  the functions `scanUp` / `scanDown`;
* `get_current_item` raises `ValueError`s and can also hit an uncaught
  `IndexError` from plain list indexing; it is embedded as an
  `Except NavError Item` with one error constructor per distinct failure.

Inside `_view_current_item` / `_leave_current_item` the source first calls
`get_current_item()`; when that call raises, the method mutates nothing and
the exception propagates.  In the embedding these helpers update the item at
the cursor when it exists and leave `data` unchanged otherwise, which agrees
with the data mutation performed by the source in every case; the theorems
about the movement operations carry in-bounds hypotheses under which the
source raises no exception at all.

A second "raw" model (`RawItem`, `rawInit`) embeds the constructor
`__init__` together with its validation loop over not-yet-validated input,
so that claims about validation order and about datasets that violate the
documented item-state invariant can be stated.
-/

set_option maxHeartbeats 1000000
set_option linter.unusedVariables false

inductive ItemState where
  | unset
  | viewed
  | completed
deriving DecidableEq

structure Item where
  id : Int
  name : String
  state : ItemState
  handlers : List String
deriving DecidableEq

abbrev Dataset := List (List Item)

/-- Object state of `OrderNavigationSystem`: fields set in `__init__`
(lines 63-69 of `src/navigation.py`). -/
structure Nav where
  data : Dataset
  current_group : Nat
  current_order : Nat
  group_navigation : Bool
  handler_name : String
  auto_print : Bool
deriving DecidableEq

/-- In-place update of one element of a list; out-of-range positions leave
the list unchanged. -/
def listModify {α : Type} : List α → Nat → (α → α) → List α
  | [], _, _ => []
  | a :: as, 0, f => f a :: as
  | a :: as, n+1, f => a :: listModify as n f

/-- Reading `data[g][i]`, as an `Option`. -/
def itemAt (d : Dataset) (g i : Nat) : Option Item :=
  match d[g]? with
  | some grp => grp[i]?
  | none => none

/-- In-place update of `data[g][i]`. -/
def modifyItem (d : Dataset) (g i : Nat) (f : Item → Item) : Dataset :=
  listModify d g (fun grp => listModify grp i f)

/-- Per-item effect of `_view_current_item` (lines 97-104): append the
handler if absent, then set the state (`completed` under `auto_print`,
otherwise `view` unless already `completed`). -/
def viewItem (handler : String) (auto : Bool) (it : Item) : Item :=
  let it1 := if handler ∈ it.handlers then it
             else { it with handlers := it.handlers ++ [handler] }
  if auto then { it1 with state := ItemState.completed }
  else if it1.state ≠ ItemState.completed then { it1 with state := ItemState.viewed }
  else it1

/-- Method `_view_current_item` (lines 97-104) applied at the cursor. -/
def view_current_item (nav : Nav) : Nav :=
  { nav with data := (modifyItem nav.data nav.current_group nav.current_order
      (viewItem nav.handler_name nav.auto_print)) }

/-- Per-item effect of `_leave_current_item` (lines 106-111): remove the
handler if present, then reset the state to `None` when no handlers remain
and the state is not `completed`. -/
def leaveItem (handler : String) (it : Item) : Item :=
  let it1 := if handler ∈ it.handlers then { it with handlers := it.handlers.erase handler }
             else it
  if it1.handlers = [] ∧ it1.state ≠ ItemState.completed then
    { it1 with state := ItemState.unset }
  else it1

/-- Method `_leave_current_item` (lines 106-111) applied at the cursor. -/
def leave_current_item (nav : Nav) : Nav :=
  { nav with data := (modifyItem nav.data nav.current_group nav.current_order
      (leaveItem nav.handler_name)) }

/-- Fuelled upward index scan; with fuel `g.length - i` it is
`for i in range(i0, len(g))` returning the first index whose item
satisfies `p`. -/
def scanUpAux (g : List Item) (p : Item → Bool) : Nat → Nat → Option Nat
  | _, 0 => none
  | i, fuel+1 =>
    match g[i]? with
    | none => none
    | some it => if p it then some i else scanUpAux g p (i+1) fuel

/-- Upward scan `for i in range(i0, len(g))` stopping at the first index
whose item satisfies `p`. -/
def scanUp (g : List Item) (p : Item → Bool) (i : Nat) : Option Nat :=
  scanUpAux g p i (g.length - i)

/-- Downward scan `for i in range(i0 - 1, -1, -1)` stopping at the first
index (counting down) whose item satisfies `p`. -/
def scanDown (g : List Item) (p : Item → Bool) : Nat → Option Nat
  | 0 => none
  | i+1 =>
    match g[i]? with
    | none => scanDown g p i
    | some it => if p it then some i else scanDown g p i

/-- The expression `self.data[self.current_group]`. -/
def currentGroup (nav : Nav) : List Item := nav.data.getD nav.current_group []

/-- Method `_next_item_index` (lines 113-127).  Manual mode steps to
`current_order + 1` when in bounds; `auto_print` mode scans forward for the
first item whose state is not `view`, then for the first whose state is
`view`. -/
def next_item_index (nav : Nav) : Option Nat :=
  if !nav.auto_print then
    if nav.current_order < (currentGroup nav).length - 1 then some (nav.current_order + 1)
    else none
  else
    match scanUp (currentGroup nav) (fun it => it.state != ItemState.viewed)
        (nav.current_order + 1) with
    | some i => some i
    | none => scanUp (currentGroup nav) (fun it => it.state == ItemState.viewed)
        (nav.current_order + 1)

/-- Method `_previous_item_index` (lines 129-143), mirror image of
`next_item_index`. -/
def previous_item_index (nav : Nav) : Option Nat :=
  if !nav.auto_print then
    if 0 < nav.current_order then some (nav.current_order - 1) else none
  else
    match scanDown (currentGroup nav) (fun it => it.state != ItemState.viewed)
        nav.current_order with
    | some i => some i
    | none => scanDown (currentGroup nav) (fun it => it.state == ItemState.viewed)
        nav.current_order

/-- The condition `state == 'view' or state == 'completed'` of the group
entry skip loops. -/
def viewedOrCompleted (it : Item) : Bool :=
  it.state == ItemState.viewed || it.state == ItemState.completed

/-- The forward skip loop of `next_item`/`next_page` (lines 155-161 and
193-198): starting from index 0, skip items that are viewed or completed;
if every item is skipped, fall back to index 0. -/
def firstUnclaimedIndex (g : List Item) : Nat :=
  match scanUp g (fun it => !(viewedOrCompleted it)) 0 with
  | some i => i
  | none => 0

/-- The backward skip loop of `previous_item`/`previous_page` (lines
176-182 and 209-214): starting from the last index, skip items that are
viewed or completed going down; if every item is skipped, fall back to the
last index. -/
def lastUnclaimedIndex (g : List Item) : Nat :=
  match scanDown g (fun it => !(viewedOrCompleted it)) g.length with
  | some i => i
  | none => g.length - 1

/-- Method `next_item` (lines 145-164). -/
def next_item (nav : Nav) : Nav :=
  let nav1 := leave_current_item nav
  let nav2 :=
    match next_item_index nav1 with
    | some i => { nav1 with current_order := i }
    | none =>
      if nav1.group_navigation ∧ nav1.current_group < nav1.data.length - 1 then
        let grp := nav1.data.getD (nav1.current_group + 1) []
        { nav1 with current_group := nav1.current_group + 1,
                    current_order := firstUnclaimedIndex grp }
      else nav1
  view_current_item nav2

/-- Method `previous_item` (lines 166-185). -/
def previous_item (nav : Nav) : Nav :=
  let nav1 := leave_current_item nav
  let nav2 :=
    match previous_item_index nav1 with
    | some i => { nav1 with current_order := i }
    | none =>
      if nav1.group_navigation ∧ 0 < nav1.current_group then
        let grp := nav1.data.getD (nav1.current_group - 1) []
        { nav1 with current_group := nav1.current_group - 1,
                    current_order := lastUnclaimedIndex grp }
      else nav1
  view_current_item nav2

/-- Method `next_page` (lines 187-201); note that the guard mentions
neither `group_navigation` nor `auto_print`. -/
def next_page (nav : Nav) : Nav :=
  let nav1 := leave_current_item nav
  let nav2 :=
    if nav1.current_group < nav1.data.length - 1 then
      let grp := nav1.data.getD (nav1.current_group + 1) []
      { nav1 with current_group := nav1.current_group + 1,
                  current_order := firstUnclaimedIndex grp }
    else nav1
  view_current_item nav2

/-- Method `previous_page` (lines 203-217). -/
def previous_page (nav : Nav) : Nav :=
  let nav1 := leave_current_item nav
  let nav2 :=
    if 0 < nav1.current_group then
      let grp := nav1.data.getD (nav1.current_group - 1) []
      { nav1 with current_group := nav1.current_group - 1,
                  current_order := lastUnclaimedIndex grp }
    else nav1
  view_current_item nav2

/-- Method `continue_item` (lines 219-233): unclaim, then scan the whole
current group from index 0 for the first item neither viewed nor completed,
else for the first viewed item, else keep the cursor; always claim at the
end. -/
def continue_item (nav : Nav) : Nav :=
  let nav1 := leave_current_item nav
  let g := currentGroup nav1
  match scanUp g (fun it => it.state != ItemState.viewed && it.state != ItemState.completed) 0 with
  | some i => view_current_item { nav1 with current_order := i }
  | none =>
    match scanUp g (fun it => it.state == ItemState.viewed) 0 with
    | some i => view_current_item { nav1 with current_order := i }
    | none => view_current_item nav1

/-- Failure modes of `get_current_item` (lines 243-251): the three
`ValueError`s of the method body, plus the uncaught Python `IndexError`
produced by the plain list indexing `self.data[self.current_group]` or
`...[self.current_order]`. -/
inductive NavError where
  | dataEmpty
  | groupEmpty
  | groupOutOfRange
  | indexError
deriving DecidableEq

/-- Method `get_current_item` (lines 243-251), with the source's evaluation
order: the comparison `self.data[self.current_group] == []` indexes the
list before the `current_group >= len(self.data)` test is ever reached, so
an out-of-range group index surfaces as `indexError`. -/
def get_current_item (nav : Nav) : Except NavError Item :=
  if nav.data = [] ∨ nav.data = [[]] then Except.error NavError.dataEmpty
  else
    match nav.data[nav.current_group]? with
    | none => Except.error NavError.indexError
    | some grp =>
      if grp = [] then Except.error NavError.groupEmpty
      else if nav.data.length ≤ nav.current_group then Except.error NavError.groupOutOfRange
      else
        match grp[nav.current_order]? with
        | none => Except.error NavError.indexError
        | some it => Except.ok it

/-- Method `mark_current_item_as_complete` (lines 263-267). -/
def mark_current_item_as_complete (nav : Nav) : Nav :=
  { nav with data := (modifyItem nav.data nav.current_group nav.current_order
      (fun it => { it with state := ItemState.completed })) }

/-- Method `toggle_autoprint` (lines 253-256). -/
def toggle_autoprint (nav : Nav) : Nav :=
  { nav with auto_print := !nav.auto_print }

/-- Method `toggle_group_navigation` (lines 258-261). -/
def toggle_group_navigation (nav : Nav) : Nav :=
  { nav with group_navigation := !nav.group_navigation }

deriving instance DecidableEq for Except

/-! Raw model of the constructor `__init__` (lines 63-95).  Before
validation runs, `__init__` already calls `_view_current_item()` on the
not-yet-validated input, so the constructor is embedded over `RawItem`, a
rendering of an arbitrary item dictionary that records exactly the
attributes the validation loop inspects: whether `id` is an integer,
whether the `state` key is present and holds a string / `None` / something
else, and whether the `handlers` key is present and holds a list.  Items
that are not dictionaries and groups that are not lists are outside this
model (the claims settled against it concern dict-shaped items only). -/

/-- Value stored under the `state` key of a raw item: `None` or a
string. -/
inductive RawState where
  | null
  | str (s : String)
deriving DecidableEq

/-- Presence and shape of one dictionary field: the key may be absent, may
hold a value of the wrong Python type, or may hold a value of the expected
shape. -/
inductive RawField (α : Type) where
  | absent
  | malformed
  | val (a : α)
deriving DecidableEq

/-- An unvalidated item dictionary, recording the attributes inspected by
the validation loop of `__init__`. -/
structure RawItem where
  idIsInt : Bool
  state : RawField RawState
  handlers : RawField (List String)
deriving DecidableEq

/-- The distinct `ValueError`s of `__init__` (lines 72-95) and of
`get_current_item` (lines 243-251), identified by their message. -/
inductive ValErr where
  | dataShouldNotBeEmpty
  | missingStateKey
  | missingHandlersKey
  | handlersNotAList
  | stateNotStringOrNone
  | stateBadValue
  | idNotAnInteger
  | dataIsEmpty
  | currentGroupEmpty
deriving DecidableEq

/-- Exceptions the constructor can raise: `ValueError`s, plus the
`KeyError` / `TypeError` / `IndexError` that the pre-validation call to
`_view_current_item()` can produce on malformed input. -/
inductive PyError where
  | valueError (e : ValErr)
  | keyError
  | typeError
  | indexError
deriving DecidableEq

/-- Per-item checks of the validation loop (lines 84-95), in source
order. -/
def validateItem (it : RawItem) : Option ValErr :=
  if it.state = RawField.absent then some ValErr.missingStateKey
  else if it.handlers = RawField.absent then some ValErr.missingHandlersKey
  else if it.handlers = RawField.malformed then some ValErr.handlersNotAList
  else if it.state = RawField.malformed then some ValErr.stateNotStringOrNone
  else if ¬ (it.state = RawField.val RawState.null ∨
             it.state = RawField.val (RawState.str "view") ∨
             it.state = RawField.val (RawState.str "completed")) then
    some ValErr.stateBadValue
  else if ¬ it.idIsInt then some ValErr.idNotAnInteger
  else none

/-- Validation of one group: first failing item wins. -/
def validateGroup : List RawItem → Option ValErr
  | [] => none
  | it :: rest =>
    match validateItem it with
    | some e => some e
    | none => validateGroup rest

/-- Validation loop over the whole dataset (lines 78-95). -/
def validateData : List (List RawItem) → Option ValErr
  | [] => none
  | g :: rest =>
    match validateGroup g with
    | some e => some e
    | none => validateData rest

/-- Effect of `_view_current_item` (lines 97-104) on a raw item, paired
with the exception it raises, if any.  Reading `item[...]` of an absent key
raises `KeyError`; membership testing on a non-list raises `TypeError`;
note that the handler append happens before the `state` read, so a
`KeyError` on `state` still leaves `handlers` mutated. -/
def rawViewItem (handler : String) (auto : Bool) (it : RawItem) :
    RawItem × Option PyError :=
  match it.handlers with
  | RawField.absent => (it, some PyError.keyError)
  | RawField.malformed => (it, some PyError.typeError)
  | RawField.val hs =>
    let it1 := { it with handlers := RawField.val (if handler ∈ hs then hs else hs ++ [handler]) }
    if auto then ({ it1 with state := RawField.val (RawState.str "completed") }, none)
    else
      match it1.state with
      | RawField.absent => (it1, some PyError.keyError)
      | RawField.malformed => ({ it1 with state := RawField.val (RawState.str "view") }, none)
      | RawField.val s =>
        if s = RawState.str "completed" then (it1, none)
        else ({ it1 with state := RawField.val (RawState.str "view") }, none)

/-- Reading `data[g][i]` of a raw dataset, as an `Option`. -/
def rawItemAt (d : List (List RawItem)) (g i : Nat) : Option RawItem :=
  match d[g]? with
  | some grp => grp[i]?
  | none => none

/-- Constructor `__init__` (lines 63-95) over a raw dataset, with
`current_group = current_order = 0`.  It returns the dataset as mutated in
place together with the exception raised, if any: the call to
`_view_current_item()` on line 70 runs first (its inner
`get_current_item()` performs the emptiness checks of lines 245-248), the
`len(data) == 0` check of line 72 is therefore unreachable, and the
validation loop of lines 78-95 runs last, after item `(0,0)` has already
been mutated. -/
def rawInit (data : List (List RawItem)) (handler : String) (auto : Bool) :
    List (List RawItem) × Option PyError :=
  if data = [] ∨ data = [[]] then (data, some (PyError.valueError ValErr.dataIsEmpty))
  else
    match data[0]? with
    | none => (data, some PyError.indexError)
    | some g0 =>
      if g0 = [] then (data, some (PyError.valueError ValErr.currentGroupEmpty))
      else
        match g0[0]? with
        | none => (data, some PyError.indexError)
        | some it0 =>
          let r := rawViewItem handler auto it0
          let d2 := listModify data 0 (fun g => listModify g 0 (fun _ => r.1))
          match r.2 with
          | some e => (d2, some e)
          | none =>
            if d2.length = 0 then (d2, some (PyError.valueError ValErr.dataShouldNotBeEmpty))
            else
              match validateData d2 with
              | some e => (d2, some (PyError.valueError e))
              | none => (d2, none)

/-- A raw item that passes every check of the validation loop. -/
def passesValidation (it : RawItem) : Bool :=
  it.idIsInt &&
  (it.state == RawField.val RawState.null ||
   it.state == RawField.val (RawState.str "view") ||
   it.state == RawField.val (RawState.str "completed")) &&
  (match it.handlers with
   | RawField.val _ => true
   | _ => false)

/-- A raw item violating the documented item-state invariant: state `Unset`
with non-empty handlers, or state `Viewed` with empty handlers. -/
def violatesStateInvariant (it : RawItem) : Bool :=
  (it.state == RawField.val RawState.null &&
    it.handlers != RawField.val ([] : List String)) ||
  (it.state == RawField.val (RawState.str "view") &&
    it.handlers == RawField.val ([] : List String))

/-- A valid dataset in the sense of the specification: at least one group
and no empty group. -/
def ValidData (d : Dataset) : Prop :=
  d ≠ [] ∧ ∀ g ∈ d, g ≠ []

/-- Cursor-bounds invariant of the navigator. -/
def InBounds (nav : Nav) : Prop :=
  nav.current_group < nav.data.length ∧
    nav.current_order < (currentGroup nav).length

/-- Concrete navigator for claim C1: auto-advance on, current group holds a
viewed item (the cursor), then a completed item, then an unset item. -/
def c1nav : Nav :=
  { data := [[⟨1, "a", ItemState.viewed, ["h"]⟩,
              ⟨2, "b", ItemState.completed, []⟩,
              ⟨3, "c", ItemState.unset, []⟩]],
    current_group := 0, current_order := 0,
    group_navigation := false, handler_name := "h", auto_print := true }

/-- Concrete navigator for claim C2: manual mode, next group starts with a
viewed item followed by an unset one. -/
def c2nav : Nav :=
  { data := [[⟨1, "a", ItemState.unset, []⟩],
             [⟨2, "b", ItemState.viewed, ["X"]⟩, ⟨3, "c", ItemState.unset, []⟩]],
    current_group := 0, current_order := 0,
    group_navigation := false, handler_name := "h", auto_print := false }

/-- Concrete navigator for claim C3: manual mode with group navigation
enabled, cursor at the last item of the first group. -/
def c3nav : Nav :=
  { data := [[⟨1, "a", ItemState.unset, []⟩], [⟨2, "b", ItemState.unset, []⟩]],
    current_group := 0, current_order := 0,
    group_navigation := true, handler_name := "h", auto_print := false }

/-- Concrete navigator for claim C4: one non-empty group, group cursor out
of range. -/
def c4nav : Nav :=
  { data := [[⟨1, "a", ItemState.unset, []⟩]],
    current_group := 1, current_order := 0,
    group_navigation := false, handler_name := "h", auto_print := false }

/-- Concrete navigator for claim C5: current group has a completed item, a
viewed item held by another handler, and an unset item; cursor on the
viewed item. -/
def c5nav : Nav :=
  { data := [[⟨1, "a", ItemState.completed, []⟩,
              ⟨2, "b", ItemState.viewed, ["X"]⟩,
              ⟨3, "c", ItemState.unset, []⟩]],
    current_group := 0, current_order := 1,
    group_navigation := false, handler_name := "h", auto_print := false }

/-- Concrete navigator for claim C6: two non-empty groups, cursor at the
end of the first group, group navigation on. -/
def c6nav : Nav :=
  { data := [[⟨1, "a", ItemState.viewed, ["h"]⟩],
             [⟨2, "b", ItemState.viewed, ["X"]⟩, ⟨3, "c", ItemState.unset, []⟩]],
    current_group := 0, current_order := 0,
    group_navigation := true, handler_name := "h", auto_print := false }

/-- Concrete navigator for claim C7: a completed item away from the cursor.
-/
def c7nav : Nav :=
  { data := [[⟨1, "a", ItemState.viewed, ["h"]⟩, ⟨2, "b", ItemState.completed, []⟩],
             [⟨3, "c", ItemState.unset, []⟩]],
    current_group := 0, current_order := 0,
    group_navigation := true, handler_name := "h", auto_print := false }

/-- Concrete navigator for claim C8 in auto-advance mode: a single unset
item with no handlers under the cursor. -/
def c8nav : Nav :=
  { data := [[⟨1, "a", ItemState.unset, []⟩]],
    current_group := 0, current_order := 0,
    group_navigation := false, handler_name := "h", auto_print := true }

/-- Concrete navigator for the amended claim C8, manual mode. -/
def c8navManual : Nav :=
  { data := [[⟨1, "a", ItemState.unset, []⟩]],
    current_group := 0, current_order := 0,
    group_navigation := false, handler_name := "h", auto_print := false }

/-- Concrete raw dataset for claim C9: item `(0,0)` is well formed, the
second group contains an item whose `state` string is not one of the three
permitted values, so validation fails after item `(0,0)` was mutated. -/
def c9data : List (List RawItem) :=
  [[⟨true, RawField.val RawState.null, RawField.val []⟩],
   [⟨true, RawField.val (RawState.str "bogus"), RawField.val []⟩]]

/-- Concrete raw dataset for claim C10: every item passes validation, the
second item has state `None` with a non-empty handlers list, the third has
state `view` with an empty handlers list. -/
def c10data : List (List RawItem) :=
  [[⟨true, RawField.val RawState.null, RawField.val []⟩,
    ⟨true, RawField.val RawState.null, RawField.val ["X"]⟩,
    ⟨true, RawField.val (RawState.str "view"), RawField.val []⟩]]

theorem listModify_length {α : Type} (l : List α) (n : Nat) (f : α → α) :
    (listModify l n f).length = l.length := by
  induction l generalizing n with
  | nil => rfl
  | cons a as ih =>
    cases n with
    | zero => rfl
    | succ m => simp [listModify, ih]

theorem listModify_getElem? {α : Type} (l : List α) (n : Nat) (f : α → α) (m : Nat) :
    (listModify l n f)[m]? = if m = n then Option.map f l[m]? else l[m]? := by
  induction l generalizing n m with
  | nil => simp [listModify]
  | cons a as ih =>
    cases n with
    | zero =>
      cases m with
      | zero => simp [listModify]
      | succ k => simp [listModify]
    | succ n2 =>
      cases m with
      | zero => simp [listModify]
      | succ k => simpa [listModify] using ih n2 k

theorem getD_eq_getElem? {α : Type} (l : List α) (n : Nat) (x : α) :
    l.getD n x = (l[n]?).getD x := by
  simp [List.getD]

theorem lt_length_of_getElem?_eq_some {α : Type} {l : List α} {n : Nat} {a : α}
    (h : l[n]? = some a) : n < l.length := by
  by_contra hn
  rw [List.getElem?_eq_none (Nat.le_of_not_lt hn)] at h
  exact Option.noConfusion h

theorem mem_of_getElem?_eq_some {α : Type} {l : List α} {n : Nat} {a : α}
    (h : l[n]? = some a) : a ∈ l := by
  have hlt := lt_length_of_getElem?_eq_some h
  rw [List.getElem?_eq_getElem hlt] at h
  cases h
  exact List.getElem_mem hlt

theorem modifyItem_length (d : Dataset) (g i : Nat) (f : Item → Item) :
    (modifyItem d g i f).length = d.length :=
  listModify_length d g _

theorem modifyItem_getElem? (d : Dataset) (g i : Nat) (f : Item → Item) (g2 : Nat) :
    (modifyItem d g i f)[g2]? =
      if g2 = g then Option.map (fun grp => listModify grp i f) d[g2]? else d[g2]? :=
  listModify_getElem? d g _ g2

theorem length_getD_modifyItem (d : Dataset) (g i : Nat) (f : Item → Item) (g2 : Nat) :
    ((modifyItem d g i f).getD g2 []).length = (d.getD g2 []).length := by
  rw [getD_eq_getElem?, getD_eq_getElem?, modifyItem_getElem?]
  by_cases h : g2 = g
  · rw [if_pos h]
    cases d[g2]? with
    | none => rfl
    | some grp => simp [listModify_length]
  · rw [if_neg h]

theorem getD_modifyItem_ne (d : Dataset) (g i : Nat) (f : Item → Item) (g2 : Nat)
    (h : g2 ≠ g) : (modifyItem d g i f).getD g2 [] = d.getD g2 [] := by
  rw [getD_eq_getElem?, getD_eq_getElem?, modifyItem_getElem?, if_neg h]

theorem itemAt_modifyItem (d : Dataset) (g i : Nat) (f : Item → Item) (g2 i2 : Nat) :
    itemAt (modifyItem d g i f) g2 i2 =
      if g2 = g ∧ i2 = i then Option.map f (itemAt d g2 i2) else itemAt d g2 i2 := by
  unfold itemAt
  rw [modifyItem_getElem?]
  by_cases hg : g2 = g
  · rw [if_pos hg]
    cases hd : d[g2]? with
    | none => simp
    | some grp =>
      simp only [Option.map_some']
      rw [listModify_getElem?]
      by_cases hi : i2 = i
      · simp [hg, hi]
      · simp [hg, hi]
  · simp [hg]

theorem scanUpAux_some {g : List Item} {p : Item → Bool} :
    ∀ {fuel i j : Nat}, scanUpAux g p i fuel = some j →
      i ≤ j ∧ ∃ it, g[j]? = some it ∧ p it = true ∧
        ∀ k it2, i ≤ k → k < j → g[k]? = some it2 → p it2 = false := by
  intro fuel
  induction fuel with
  | zero => intro i j h; exact absurd h (by simp [scanUpAux])
  | succ n ih =>
    intro i j h
    unfold scanUpAux at h
    cases hg : g[i]? with
    | none => rw [hg] at h; exact Option.noConfusion h
    | some it =>
      rw [hg] at h
      dsimp only at h
      by_cases hp : p it
      · rw [if_pos hp] at h
        cases h
        refine ⟨Nat.le_refl _, it, hg, hp, ?_⟩
        intro k it2 hik hkj _
        exact absurd hkj (Nat.not_lt.mpr hik)
      · rw [if_neg hp] at h
        obtain ⟨hij, it3, hj, hpj, hmin⟩ := ih h
        refine ⟨Nat.le_trans (Nat.le_succ i) hij, it3, hj, hpj, ?_⟩
        intro k it2 hik hkj hk
        rcases Nat.eq_or_lt_of_le hik with he | hlt
        · rw [he] at hg
          rw [hg] at hk
          cases hk
          exact eq_false_of_ne_true hp
        · exact hmin k it2 hlt hkj hk

theorem scanUpAux_none {g : List Item} {p : Item → Bool} :
    ∀ {fuel i : Nat}, g.length ≤ i + fuel → scanUpAux g p i fuel = none →
      ∀ j it, i ≤ j → g[j]? = some it → p it = false := by
  intro fuel
  induction fuel with
  | zero =>
    intro i hlen _ j it hij hj
    have := lt_length_of_getElem?_eq_some hj
    omega
  | succ n ih =>
    intro i hlen h j it hij hj
    unfold scanUpAux at h
    cases hg : g[i]? with
    | none =>
      have := lt_length_of_getElem?_eq_some hj
      have hi : g.length ≤ i := by
        by_contra hc
        rw [List.getElem?_eq_getElem (Nat.lt_of_not_le hc)] at hg
        exact Option.noConfusion hg
      omega
    | some it1 =>
      rw [hg] at h
      dsimp only at h
      by_cases hp : p it1
      · rw [if_pos hp] at h; exact Option.noConfusion h
      · rw [if_neg hp] at h
        rcases Nat.eq_or_lt_of_le hij with he | hlt
        · rw [he] at hg
          rw [hg] at hj
          cases hj
          exact eq_false_of_ne_true hp
        · exact ih (by omega) h j it hlt hj

theorem scanDown_some {g : List Item} {p : Item → Bool} :
    ∀ {i j : Nat}, scanDown g p i = some j →
      j < i ∧ ∃ it, g[j]? = some it ∧ p it = true ∧
        ∀ k it2, j < k → k < i → g[k]? = some it2 → p it2 = false := by
  intro i
  induction i with
  | zero => intro j h; exact absurd h (by simp [scanDown])
  | succ n ih =>
    intro j h
    unfold scanDown at h
    cases hg : g[n]? with
    | none =>
      rw [hg] at h
      obtain ⟨hjn, it3, hj, hpj, hmin⟩ := ih h
      refine ⟨Nat.lt_succ_of_lt hjn, it3, hj, hpj, ?_⟩
      intro k it2 hjk hk hgk
      rcases Nat.lt_succ_iff_lt_or_eq.mp hk with hlt | he
      · exact hmin k it2 hjk hlt hgk
      · rw [he] at hgk; rw [hgk] at hg; exact Option.noConfusion hg
    | some it =>
      rw [hg] at h
      dsimp only at h
      by_cases hp : p it
      · rw [if_pos hp] at h
        cases h
        refine ⟨Nat.lt_succ_self _, it, hg, hp, ?_⟩
        intro k it2 hjk hk _
        omega
      · rw [if_neg hp] at h
        obtain ⟨hjn, it3, hj, hpj, hmin⟩ := ih h
        refine ⟨Nat.lt_succ_of_lt hjn, it3, hj, hpj, ?_⟩
        intro k it2 hjk hk hgk
        rcases Nat.lt_succ_iff_lt_or_eq.mp hk with hlt | he
        · exact hmin k it2 hjk hlt hgk
        · rw [he] at hgk
          rw [hgk] at hg
          cases hg
          exact eq_false_of_ne_true hp

theorem scanDown_none {g : List Item} {p : Item → Bool} :
    ∀ {i : Nat}, scanDown g p i = none →
      ∀ j it, j < i → g[j]? = some it → p it = false := by
  intro i
  induction i with
  | zero => intro _ j it hj _; omega
  | succ n ih =>
    intro h j it hj hgj
    unfold scanDown at h
    cases hg : g[n]? with
    | none =>
      rw [hg] at h
      rcases Nat.lt_succ_iff_lt_or_eq.mp hj with hlt | he
      · exact ih h j it hlt hgj
      · rw [he] at hgj; rw [hgj] at hg; exact Option.noConfusion hg
    | some it1 =>
      rw [hg] at h
      dsimp only at h
      by_cases hp : p it1
      · rw [if_pos hp] at h; exact Option.noConfusion h
      · rw [if_neg hp] at h
        rcases Nat.lt_succ_iff_lt_or_eq.mp hj with hlt | he
        · exact ih h j it hlt hgj
        · rw [he] at hgj
          rw [hgj] at hg
          cases hg
          exact eq_false_of_ne_true hp

theorem scanUp_some {g : List Item} {p : Item → Bool} {i j : Nat}
    (h : scanUp g p i = some j) :
    i ≤ j ∧ ∃ it, g[j]? = some it ∧ p it = true ∧
      ∀ k it2, i ≤ k → k < j → g[k]? = some it2 → p it2 = false :=
  scanUpAux_some h

theorem scanUp_none {g : List Item} {p : Item → Bool} {i : Nat}
    (h : scanUp g p i = none) :
    ∀ j it, i ≤ j → g[j]? = some it → p it = false :=
  scanUpAux_none (by omega) h

theorem scanUp_some_lt {g : List Item} {p : Item → Bool} {i j : Nat}
    (h : scanUp g p i = some j) : j < g.length := by
  obtain ⟨-, it, hj, -, -⟩ := scanUp_some h
  exact lt_length_of_getElem?_eq_some hj

theorem ValidData_group_pos {d : Dataset} (hv : ValidData d) {g : Nat}
    (hg : g < d.length) : 0 < (d.getD g []).length := by
  rw [getD_eq_getElem?, List.getElem?_eq_getElem hg]
  have hmem : d[g] ∈ d := List.getElem_mem hg
  have hne := hv.2 _ hmem
  cases hd : d[g] with
  | nil => exact absurd hd hne
  | cons a as => simp

theorem firstUnclaimedIndex_lt {g : List Item} (hg : 0 < g.length) :
    firstUnclaimedIndex g < g.length := by
  unfold firstUnclaimedIndex
  cases h : scanUp g (fun it => !(viewedOrCompleted it)) 0 with
  | none => exact hg
  | some i => exact scanUp_some_lt h

theorem lastUnclaimedIndex_lt {g : List Item} (hg : 0 < g.length) :
    lastUnclaimedIndex g < g.length := by
  unfold lastUnclaimedIndex
  cases h : scanDown g (fun it => !(viewedOrCompleted it)) g.length with
  | none => exact Nat.sub_lt hg Nat.one_pos
  | some i => exact (scanDown_some h).1

theorem next_item_index_lt {nav : Nav} {i : Nat} (h : next_item_index nav = some i) :
    i < (currentGroup nav).length := by
  unfold next_item_index at h
  by_cases ha : nav.auto_print
  · simp only [ha, Bool.not_true, Bool.false_eq_true, if_false] at h
    cases h1 : scanUp (currentGroup nav) (fun it => it.state != ItemState.viewed)
        (nav.current_order + 1) with
    | some j =>
      rw [h1] at h
      cases h
      exact scanUp_some_lt h1
    | none =>
      rw [h1] at h
      exact scanUp_some_lt h
  · rw [Bool.not_eq_true] at ha
    simp only [ha, Bool.not_false, if_true] at h
    by_cases hlt : nav.current_order < (currentGroup nav).length - 1
    · rw [if_pos hlt] at h
      cases h
      omega
    · rw [if_neg hlt] at h
      exact Option.noConfusion h

theorem previous_item_index_lt {nav : Nav} {i : Nat}
    (h : previous_item_index nav = some i) : i < nav.current_order := by
  unfold previous_item_index at h
  by_cases ha : nav.auto_print
  · simp only [ha, Bool.not_true, Bool.false_eq_true, if_false] at h
    cases h1 : scanDown (currentGroup nav) (fun it => it.state != ItemState.viewed)
        nav.current_order with
    | some j =>
      rw [h1] at h
      cases h
      exact (scanDown_some h1).1
    | none =>
      rw [h1] at h
      exact (scanDown_some h).1
  · rw [Bool.not_eq_true] at ha
    simp only [ha, Bool.not_false, if_true] at h
    by_cases hlt : 0 < nav.current_order
    · rw [if_pos hlt] at h
      cases h
      omega
    · rw [if_neg hlt] at h
      exact Option.noConfusion h

theorem firstUnclaimedIndex_spec (g : List Item) :
    (∃ it, g[firstUnclaimedIndex g]? = some it ∧ viewedOrCompleted it = false ∧
        ∀ k it2, k < firstUnclaimedIndex g → g[k]? = some it2 →
          viewedOrCompleted it2 = true) ∨
      ((∀ (k : Nat) (it2 : Item), g[k]? = some it2 → viewedOrCompleted it2 = true) ∧
        firstUnclaimedIndex g = 0) := by
  cases h : scanUp g (fun it => !(viewedOrCompleted it)) 0 with
  | some i =>
    have hval : firstUnclaimedIndex g = i := by unfold firstUnclaimedIndex; rw [h]
    rw [hval]
    left
    obtain ⟨-, it, hj, hp, hmin⟩ := scanUp_some h
    refine ⟨it, hj, by simpa using hp, ?_⟩
    intro k it2 hk hgk
    have := hmin k it2 (Nat.zero_le k) hk hgk
    simpa using this
  | none =>
    have hval : firstUnclaimedIndex g = 0 := by unfold firstUnclaimedIndex; rw [h]
    right
    refine ⟨?_, hval⟩
    intro k it2 hgk
    have := scanUp_none h k it2 (Nat.zero_le k) hgk
    simpa using this

theorem lastUnclaimedIndex_spec (g : List Item) :
    (∃ it, g[lastUnclaimedIndex g]? = some it ∧ viewedOrCompleted it = false ∧
        ∀ k it2, lastUnclaimedIndex g < k → g[k]? = some it2 →
          viewedOrCompleted it2 = true) ∨
      ((∀ (k : Nat) (it2 : Item), g[k]? = some it2 → viewedOrCompleted it2 = true) ∧
        lastUnclaimedIndex g = g.length - 1) := by
  cases h : scanDown g (fun it => !(viewedOrCompleted it)) g.length with
  | some i =>
    have hval : lastUnclaimedIndex g = i := by unfold lastUnclaimedIndex; rw [h]
    rw [hval]
    left
    obtain ⟨-, it, hj, hp, hmin⟩ := scanDown_some h
    refine ⟨it, hj, by simpa using hp, ?_⟩
    intro k it2 hk hgk
    have := hmin k it2 hk (lt_length_of_getElem?_eq_some hgk) hgk
    simpa using this
  | none =>
    have hval : lastUnclaimedIndex g = g.length - 1 := by unfold lastUnclaimedIndex; rw [h]
    right
    refine ⟨?_, hval⟩
    intro k it2 hgk
    have := scanDown_none h k it2 (lt_length_of_getElem?_eq_some hgk) hgk
    simpa using this

theorem viewItem_completed (handler : String) (auto : Bool) (it : Item)
    (h : it.state = ItemState.completed) :
    (viewItem handler auto it).state = ItemState.completed := by
  unfold viewItem
  by_cases hm : handler ∈ it.handlers <;> by_cases ha : auto <;> simp [hm, ha, h]

theorem leaveItem_completed (handler : String) (it : Item)
    (h : it.state = ItemState.completed) :
    (leaveItem handler it).state = ItemState.completed := by
  unfold leaveItem
  by_cases hm : handler ∈ it.handlers <;> simp [hm, h]

theorem completed_sticky_modify {d : Dataset} (a b : Nat) {f : Item → Item}
    (hf : ∀ it, it.state = ItemState.completed → (f it).state = ItemState.completed)
    {g i : Nat} {it : Item} (h : itemAt d g i = some it)
    (hc : it.state = ItemState.completed) :
    ∃ it2, itemAt (modifyItem d a b f) g i = some it2 ∧
      it2.state = ItemState.completed := by
  rw [itemAt_modifyItem]
  by_cases hgi : g = a ∧ i = b
  · rw [if_pos hgi, h]
    exact ⟨f it, rfl, hf it hc⟩
  · rw [if_neg hgi]
    exact ⟨it, h, hc⟩

theorem view_preserves_completed (nav2 : Nav) {g i : Nat} {it : Item}
    (h : itemAt nav2.data g i = some it) (hc : it.state = ItemState.completed) :
    ∃ it2, itemAt (view_current_item nav2).data g i = some it2 ∧
      it2.state = ItemState.completed := by
  unfold view_current_item
  exact completed_sticky_modify _ _ (fun x hx => viewItem_completed _ _ x hx) h hc

theorem leave_preserves_completed (nav : Nav) {g i : Nat} {it : Item}
    (h : itemAt nav.data g i = some it) (hc : it.state = ItemState.completed) :
    ∃ it2, itemAt (leave_current_item nav).data g i = some it2 ∧
      it2.state = ItemState.completed := by
  unfold leave_current_item
  exact completed_sticky_modify _ _ (fun x hx => leaveItem_completed _ x hx) h hc

theorem next_item_preserves_completed (nav : Nav) {g i : Nat} {it : Item}
    (h : itemAt nav.data g i = some it) (hc : it.state = ItemState.completed) :
    ∃ it2, itemAt (next_item nav).data g i = some it2 ∧
      it2.state = ItemState.completed := by
  obtain ⟨it1, h1, hc1⟩ := leave_preserves_completed nav h hc
  simp only [next_item]
  split
  · exact view_preserves_completed _ h1 hc1
  · split
    · exact view_preserves_completed _ h1 hc1
    · exact view_preserves_completed _ h1 hc1

theorem previous_item_preserves_completed (nav : Nav) {g i : Nat} {it : Item}
    (h : itemAt nav.data g i = some it) (hc : it.state = ItemState.completed) :
    ∃ it2, itemAt (previous_item nav).data g i = some it2 ∧
      it2.state = ItemState.completed := by
  obtain ⟨it1, h1, hc1⟩ := leave_preserves_completed nav h hc
  simp only [previous_item]
  split
  · exact view_preserves_completed _ h1 hc1
  · split
    · exact view_preserves_completed _ h1 hc1
    · exact view_preserves_completed _ h1 hc1

theorem next_page_preserves_completed (nav : Nav) {g i : Nat} {it : Item}
    (h : itemAt nav.data g i = some it) (hc : it.state = ItemState.completed) :
    ∃ it2, itemAt (next_page nav).data g i = some it2 ∧
      it2.state = ItemState.completed := by
  obtain ⟨it1, h1, hc1⟩ := leave_preserves_completed nav h hc
  simp only [next_page]
  split
  · exact view_preserves_completed _ h1 hc1
  · exact view_preserves_completed _ h1 hc1

theorem previous_page_preserves_completed (nav : Nav) {g i : Nat} {it : Item}
    (h : itemAt nav.data g i = some it) (hc : it.state = ItemState.completed) :
    ∃ it2, itemAt (previous_page nav).data g i = some it2 ∧
      it2.state = ItemState.completed := by
  obtain ⟨it1, h1, hc1⟩ := leave_preserves_completed nav h hc
  simp only [previous_page]
  split
  · exact view_preserves_completed _ h1 hc1
  · exact view_preserves_completed _ h1 hc1

theorem continue_item_preserves_completed (nav : Nav) {g i : Nat} {it : Item}
    (h : itemAt nav.data g i = some it) (hc : it.state = ItemState.completed) :
    ∃ it2, itemAt (continue_item nav).data g i = some it2 ∧
      it2.state = ItemState.completed := by
  obtain ⟨it1, h1, hc1⟩ := leave_preserves_completed nav h hc
  simp only [continue_item]
  split
  · exact view_preserves_completed _ h1 hc1
  · split
    · exact view_preserves_completed _ h1 hc1
    · exact view_preserves_completed _ h1 hc1

theorem inBounds_view (nav2 : Nav) : InBounds (view_current_item nav2) ↔ InBounds nav2 := by
  unfold InBounds view_current_item currentGroup
  dsimp only
  rw [modifyItem_length, length_getD_modifyItem]

theorem inBounds_leave (nav : Nav) : InBounds (leave_current_item nav) ↔ InBounds nav := by
  unfold InBounds leave_current_item currentGroup
  dsimp only
  rw [modifyItem_length, length_getD_modifyItem]

theorem leave_data_length (nav : Nav) :
    (leave_current_item nav).data.length = nav.data.length :=
  modifyItem_length nav.data _ _ _

theorem leave_groupLength (nav : Nav) (g2 : Nat) :
    ((leave_current_item nav).data.getD g2 []).length = (nav.data.getD g2 []).length :=
  length_getD_modifyItem nav.data _ _ _ g2

theorem leave_current_group (nav : Nav) :
    (leave_current_item nav).current_group = nav.current_group := rfl

theorem leave_current_order (nav : Nav) :
    (leave_current_item nav).current_order = nav.current_order := rfl

theorem leave_group_navigation (nav : Nav) :
    (leave_current_item nav).group_navigation = nav.group_navigation := rfl

theorem leave_auto_print (nav : Nav) :
    (leave_current_item nav).auto_print = nav.auto_print := rfl

theorem leave_handler_name (nav : Nav) :
    (leave_current_item nav).handler_name = nav.handler_name := rfl

theorem next_item_inBounds (nav : Nav) (hv : ValidData nav.data) (hb : InBounds nav) :
    InBounds (next_item nav) := by
  have hb1 : InBounds (leave_current_item nav) := (inBounds_leave nav).mpr hb
  simp only [next_item]
  split
  · rename_i i hni
    rw [inBounds_view]
    refine ⟨hb1.1, ?_⟩
    show i < (currentGroup (leave_current_item nav)).length
    exact next_item_index_lt hni
  · rename_i hni
    split
    · rename_i hcond
      rw [inBounds_view]
      have hc2 := hcond.2
      rw [leave_current_group, leave_data_length] at hc2
      constructor
      · show nav.current_group + 1 < (leave_current_item nav).data.length
        rw [leave_data_length]
        omega
      · show firstUnclaimedIndex ((leave_current_item nav).data.getD (nav.current_group + 1) []) <
          ((leave_current_item nav).data.getD (nav.current_group + 1) []).length
        apply firstUnclaimedIndex_lt
        rw [leave_groupLength]
        apply ValidData_group_pos hv
        omega
    · rw [inBounds_view]
      exact hb1

theorem previous_item_inBounds (nav : Nav) (hv : ValidData nav.data) (hb : InBounds nav) :
    InBounds (previous_item nav) := by
  have hb1 : InBounds (leave_current_item nav) := (inBounds_leave nav).mpr hb
  simp only [previous_item]
  split
  · rename_i i hni
    rw [inBounds_view]
    refine ⟨hb1.1, ?_⟩
    show i < (currentGroup (leave_current_item nav)).length
    exact Nat.lt_trans (previous_item_index_lt hni) hb1.2
  · rename_i hni
    split
    · rename_i hcond
      rw [inBounds_view]
      have hcg := hb.1
      constructor
      · show nav.current_group - 1 < (leave_current_item nav).data.length
        rw [leave_data_length]
        omega
      · show lastUnclaimedIndex ((leave_current_item nav).data.getD (nav.current_group - 1) []) <
          ((leave_current_item nav).data.getD (nav.current_group - 1) []).length
        apply lastUnclaimedIndex_lt
        rw [leave_groupLength]
        apply ValidData_group_pos hv
        exact Nat.lt_of_le_of_lt (Nat.sub_le _ _) hcg
    · rw [inBounds_view]
      exact hb1

theorem next_page_inBounds (nav : Nav) (hv : ValidData nav.data) (hb : InBounds nav) :
    InBounds (next_page nav) := by
  have hb1 : InBounds (leave_current_item nav) := (inBounds_leave nav).mpr hb
  simp only [next_page]
  split
  · rename_i hcond
    rw [leave_current_group, leave_data_length] at hcond
    rw [inBounds_view]
    constructor
    · show nav.current_group + 1 < (leave_current_item nav).data.length
      rw [leave_data_length]
      omega
    · show firstUnclaimedIndex ((leave_current_item nav).data.getD (nav.current_group + 1) []) <
        ((leave_current_item nav).data.getD (nav.current_group + 1) []).length
      apply firstUnclaimedIndex_lt
      rw [leave_groupLength]
      apply ValidData_group_pos hv
      omega
  · rw [inBounds_view]
    exact hb1

theorem previous_page_inBounds (nav : Nav) (hv : ValidData nav.data) (hb : InBounds nav) :
    InBounds (previous_page nav) := by
  have hb1 : InBounds (leave_current_item nav) := (inBounds_leave nav).mpr hb
  simp only [previous_page]
  split
  · rename_i hcond
    rw [inBounds_view]
    have h1 := hb.1
    constructor
    · show nav.current_group - 1 < (leave_current_item nav).data.length
      rw [leave_data_length]
      omega
    · show lastUnclaimedIndex ((leave_current_item nav).data.getD (nav.current_group - 1) []) <
        ((leave_current_item nav).data.getD (nav.current_group - 1) []).length
      apply lastUnclaimedIndex_lt
      rw [leave_groupLength]
      apply ValidData_group_pos hv
      omega
  · rw [inBounds_view]
    exact hb1

theorem continue_item_inBounds (nav : Nav) (_hv : ValidData nav.data) (hb : InBounds nav) :
    InBounds (continue_item nav) := by
  have hb1 : InBounds (leave_current_item nav) := (inBounds_leave nav).mpr hb
  simp only [continue_item]
  split
  · rename_i i hs
    rw [inBounds_view]
    exact ⟨hb1.1, scanUp_some_lt hs⟩
  · split
    · rename_i i hs
      rw [inBounds_view]
      exact ⟨hb1.1, scanUp_some_lt hs⟩
    · rw [inBounds_view]
      exact hb1

theorem mark_inBounds (nav : Nav) (hb : InBounds nav) :
    InBounds (mark_current_item_as_complete nav) := by
  unfold InBounds currentGroup at hb
  unfold InBounds mark_current_item_as_complete currentGroup
  dsimp only
  rw [modifyItem_length, length_getD_modifyItem]
  exact hb

/-- Claim C3, amended: in manual mode (`auto_print = false`) with
`group_navigation = false`, neither `next_item` nor `previous_item` changes
`current_group`.  (The original claim allowed any value of
`group_navigation`; see the counterexample.) -/
theorem c3_manual_no_group_change (nav : Nav) (h1 : nav.auto_print = false)
    (h2 : nav.group_navigation = false) :
    (next_item nav).current_group = nav.current_group ∧
    (previous_item nav).current_group = nav.current_group := by
  constructor
  · simp only [next_item]
    split
    · rfl
    · split
      · rename_i hcond
        exfalso
        have hgn := hcond.1
        rw [leave_group_navigation, h2] at hgn
        exact Bool.noConfusion hgn
      · rfl
  · simp only [previous_item]
    split
    · rfl
    · split
      · rename_i hcond
        exfalso
        have hgn := hcond.1
        rw [leave_group_navigation, h2] at hgn
        exact Bool.noConfusion hgn
      · rfl

/-- Claim C3, counterexample to the original statement: in manual mode with
`group_navigation = true`, `next_item` at the end of a group crosses into
the next group, changing `current_group`. -/
theorem c3_counterexample :
    c3nav.auto_print = false ∧
    (next_item c3nav).current_group ≠ c3nav.current_group := by decide

/-- Witness for claim C3 at a concrete manual-mode navigator with group
navigation off. -/
theorem c3_manual_no_group_change_witness :
    c2nav.auto_print = false ∧ c2nav.group_navigation = false ∧
    (next_item c2nav).current_group = c2nav.current_group :=
  ⟨rfl, rfl, (c3_manual_no_group_change c2nav rfl rfl).1⟩

/-- Claim C4, amended: `get_current_item` fails with `dataEmpty` when the
dataset is `[]` or `[[]]`, with `groupEmpty` when the current group is
empty, and returns the item at the cursor when everything is in range; but
when `current_group` is at or beyond the group count (and the dataset is
not empty), the failure is the uncaught `IndexError` of the list indexing
on line 247, not the `ValueError` of the dead branch on lines 249-250. -/
theorem c4_get_current_item_cases :
    (∀ nav : Nav, (nav.data = [] ∨ nav.data = [[]]) →
        get_current_item nav = Except.error NavError.dataEmpty) ∧
    (∀ (nav : Nav) (grp : List Item), ¬(nav.data = [] ∨ nav.data = [[]]) →
        nav.data[nav.current_group]? = some grp → grp = [] →
        get_current_item nav = Except.error NavError.groupEmpty) ∧
    (∀ nav : Nav, ¬(nav.data = [] ∨ nav.data = [[]]) →
        nav.data.length ≤ nav.current_group →
        get_current_item nav = Except.error NavError.indexError) ∧
    (∀ (nav : Nav) (grp : List Item) (it : Item), ¬(nav.data = [] ∨ nav.data = [[]]) →
        nav.data[nav.current_group]? = some grp → grp ≠ [] →
        grp[nav.current_order]? = some it →
        get_current_item nav = Except.ok it) := by
  refine ⟨?_, ?_, ?_, ?_⟩
  · intro nav h
    unfold get_current_item
    rw [if_pos h]
  · intro nav grp h hg hgrp
    unfold get_current_item
    rw [if_neg h, hg]
    dsimp only
    rw [if_pos hgrp]
  · intro nav h hle
    unfold get_current_item
    rw [if_neg h, List.getElem?_eq_none hle]
  · intro nav grp it h h2 h3 h4
    unfold get_current_item
    rw [if_neg h, h2]
    dsimp only
    rw [if_neg h3, if_neg (Nat.not_le.mpr (lt_length_of_getElem?_eq_some h2)), h4]

/-- Claim C4, counterexample to the original statement: a navigator with a
non-empty dataset and `current_group` past the end fails with the uncaught
`IndexError`, not with the dedicated out-of-range `ValueError`. -/
theorem c4_counterexample :
    c4nav.data ≠ [] ∧ c4nav.data.length ≤ c4nav.current_group ∧
    get_current_item c4nav ≠ Except.error NavError.groupOutOfRange ∧
    get_current_item c4nav = Except.error NavError.indexError := by decide

/-- Witness for claim C4 at concrete navigators. -/
theorem c4_get_current_item_cases_witness :
    get_current_item (⟨[], 0, 0, false, "h", false⟩ : Nav) =
      Except.error NavError.dataEmpty ∧
    get_current_item c4nav = Except.error NavError.indexError :=
  ⟨c4_get_current_item_cases.1 _ (Or.inl rfl),
   c4_get_current_item_cases.2.2.1 c4nav (by decide) (by decide)⟩

/-- Claim C6: for a valid dataset, every public operation preserves the
cursor-bounds invariant. -/
theorem c6_bounds_preserved (nav : Nav) (hv : ValidData nav.data) (hb : InBounds nav) :
    InBounds (next_item nav) ∧ InBounds (previous_item nav) ∧
    InBounds (next_page nav) ∧ InBounds (previous_page nav) ∧
    InBounds (continue_item nav) ∧ InBounds (mark_current_item_as_complete nav) ∧
    InBounds (toggle_autoprint nav) ∧ InBounds (toggle_group_navigation nav) :=
  ⟨next_item_inBounds nav hv hb, previous_item_inBounds nav hv hb,
   next_page_inBounds nav hv hb, previous_page_inBounds nav hv hb,
   continue_item_inBounds nav hv hb, mark_inBounds nav hb, hb, hb⟩

/-- Witness for claim C6 at a concrete navigator. -/
theorem c6_bounds_preserved_witness :
    ValidData c6nav.data ∧ InBounds c6nav ∧ InBounds (next_item c6nav) :=
  ⟨by constructor <;> decide, by constructor <;> decide,
   (c6_bounds_preserved c6nav (by constructor <;> decide) (by constructor <;> decide)).1⟩

/-- Claim C7: an item that is `completed` before any of the five traversal
operations is still `completed` afterwards. -/
theorem c7_completed_sticky (nav : Nav) (g i : Nat) (it : Item)
    (h : itemAt nav.data g i = some it) (hc : it.state = ItemState.completed) :
    (∃ it2, itemAt (next_item nav).data g i = some it2 ∧
        it2.state = ItemState.completed) ∧
    (∃ it2, itemAt (previous_item nav).data g i = some it2 ∧
        it2.state = ItemState.completed) ∧
    (∃ it2, itemAt (next_page nav).data g i = some it2 ∧
        it2.state = ItemState.completed) ∧
    (∃ it2, itemAt (previous_page nav).data g i = some it2 ∧
        it2.state = ItemState.completed) ∧
    (∃ it2, itemAt (continue_item nav).data g i = some it2 ∧
        it2.state = ItemState.completed) :=
  ⟨next_item_preserves_completed nav h hc,
   previous_item_preserves_completed nav h hc,
   next_page_preserves_completed nav h hc,
   previous_page_preserves_completed nav h hc,
   continue_item_preserves_completed nav h hc⟩

/-- Witness for claim C7 at a concrete navigator with a completed item. -/
theorem c7_completed_sticky_witness :
    itemAt c7nav.data 0 1 = some ⟨2, "b", ItemState.completed, []⟩ ∧
    (∃ it2, itemAt (next_item c7nav).data 0 1 = some it2 ∧
        it2.state = ItemState.completed) :=
  ⟨by decide,
   (c7_completed_sticky c7nav 0 1 ⟨2, "b", ItemState.completed, []⟩ (by decide) rfl).1⟩

/-- Claim C8, amended: with auto-advance off, claiming and then immediately
unclaiming an item that was `unset` with no handlers restores it exactly.
(With auto-advance on the round trip does not hold; see the
counterexample.) -/
theorem c8_roundtrip_manual (nav : Nav) (it : Item) (h : nav.auto_print = false)
    (hit : itemAt nav.data nav.current_group nav.current_order = some it)
    (hs : it.state = ItemState.unset) (hh : it.handlers = []) :
    itemAt (leave_current_item (view_current_item nav)).data
      nav.current_group nav.current_order = some it := by
  unfold leave_current_item view_current_item
  dsimp only
  rw [itemAt_modifyItem, if_pos ⟨rfl, rfl⟩, itemAt_modifyItem, if_pos ⟨rfl, rfl⟩, hit]
  have hrt : leaveItem nav.handler_name (viewItem nav.handler_name nav.auto_print it) = it := by
    cases it with
    | mk i n s hs2 =>
      simp only [Item.mk.injEq] at *
      subst hs
      subst hh
      rw [h]
      simp [viewItem, leaveItem]
  simp [hrt]

/-- Claim C8, counterexample to the original statement: with auto-advance
on, claim sets the state to `completed`, and unclaim leaves it `completed`,
so the round trip does not restore `unset`. -/
theorem c8_counterexample :
    itemAt (leave_current_item (view_current_item c8nav)).data 0 0 =
      some ⟨1, "a", ItemState.completed, []⟩ := by decide

/-- Witness for the amended claim C8 at a concrete manual-mode
navigator. -/
theorem c8_roundtrip_manual_witness :
    itemAt (leave_current_item (view_current_item c8navManual)).data 0 0 =
      some ⟨1, "a", ItemState.unset, []⟩ :=
  c8_roundtrip_manual c8navManual ⟨1, "a", ItemState.unset, []⟩ rfl (by decide) rfl rfl

theorem state_viewed_or_completed {s : ItemState}
    (h : ((s != ItemState.viewed) && (s != ItemState.completed)) = false) :
    s = ItemState.viewed ∨ s = ItemState.completed := by
  cases s <;> simp_all

/-- Claim C5: `continue_item` unclaims the current item, then scans the
current group (as left by the unclaim) from index 0 and moves the cursor to
the first item whose state is neither `viewed` nor `completed`; failing
that, to the first `viewed` item; failing that, the cursor stays in place;
in every case the operation ends by claiming the item under the cursor. -/
theorem c5_continue_item (nav : Nav) :
    ∃ t, continue_item nav =
        view_current_item { leave_current_item nav with current_order := t } ∧
      ((∃ it, (currentGroup (leave_current_item nav))[t]? = some it ∧
          it.state ≠ ItemState.viewed ∧ it.state ≠ ItemState.completed ∧
          ∀ k it2, k < t → (currentGroup (leave_current_item nav))[k]? = some it2 →
            (it2.state = ItemState.viewed ∨ it2.state = ItemState.completed)) ∨
       ((∀ (k : Nat) (it2 : Item),
            (currentGroup (leave_current_item nav))[k]? = some it2 →
            (it2.state = ItemState.viewed ∨ it2.state = ItemState.completed)) ∧
        ∃ it, (currentGroup (leave_current_item nav))[t]? = some it ∧
          it.state = ItemState.viewed ∧
          ∀ k it2, k < t → (currentGroup (leave_current_item nav))[k]? = some it2 →
            it2.state ≠ ItemState.viewed) ∨
       ((∀ (k : Nat) (it2 : Item),
            (currentGroup (leave_current_item nav))[k]? = some it2 →
            (it2.state = ItemState.viewed ∨ it2.state = ItemState.completed)) ∧
        (∀ (k : Nat) (it2 : Item),
            (currentGroup (leave_current_item nav))[k]? = some it2 →
            it2.state ≠ ItemState.viewed) ∧
        t = nav.current_order)) := by
  simp only [continue_item]
  cases h1 : scanUp (currentGroup (leave_current_item nav))
      (fun it => it.state != ItemState.viewed && it.state != ItemState.completed) 0 with
  | some i =>
    refine ⟨i, rfl, Or.inl ?_⟩
    obtain ⟨-, it, hit, hp, hmin⟩ := scanUp_some h1
    simp only [Bool.and_eq_true, bne_iff_ne] at hp
    refine ⟨it, hit, hp.1, hp.2, ?_⟩
    intro k it2 hk hgk
    exact state_viewed_or_completed (hmin k it2 (Nat.zero_le k) hk hgk)
  | none =>
    have hall : ∀ (k : Nat) (it2 : Item),
        (currentGroup (leave_current_item nav))[k]? = some it2 →
        (it2.state = ItemState.viewed ∨ it2.state = ItemState.completed) := by
      intro k it2 hgk
      exact state_viewed_or_completed (scanUp_none h1 k it2 (Nat.zero_le k) hgk)
    cases h2 : scanUp (currentGroup (leave_current_item nav))
        (fun it => it.state == ItemState.viewed) 0 with
    | some i =>
      refine ⟨i, rfl, Or.inr (Or.inl ⟨hall, ?_⟩)⟩
      obtain ⟨-, it, hit, hp, hmin⟩ := scanUp_some h2
      simp only [beq_iff_eq] at hp
      refine ⟨it, hit, hp, ?_⟩
      intro k it2 hk hgk
      have := hmin k it2 (Nat.zero_le k) hk hgk
      simpa using this
    | none =>
      refine ⟨nav.current_order, rfl, Or.inr (Or.inr ⟨hall, ?_, rfl⟩)⟩
      intro k it2 hgk
      have := scanUp_none h2 k it2 (Nat.zero_le k) hgk
      simpa using this

/-- Witness for claim C5 at a concrete navigator. -/
theorem c5_continue_item_witness :
    ∃ t, continue_item c5nav =
      view_current_item { leave_current_item c5nav with current_order := t } := by
  obtain ⟨t, h, -⟩ := c5_continue_item c5nav
  exact ⟨t, h⟩

theorem leave_getD_ne (nav : Nav) (g2 : Nat) (h : g2 ≠ nav.current_group) :
    (leave_current_item nav).data.getD g2 [] = nav.data.getD g2 [] :=
  getD_modifyItem_ne nav.data nav.current_group nav.current_order _ g2 h

/-- Claim C2, amended: `next_page` and `previous_page` cross into the
adjacent group whenever one exists, regardless of `group_navigation`,
landing at index 0 (forward) or the last index (backward) and then skipping
viewed/completed items forward/backward — in every mode, not only under
auto-advance — with fallback to index 0 / the last index when the whole
group is claimed; when no adjacent group exists the cursor is unchanged. -/
theorem c2_page_crossing (nav : Nav) :
    (nav.current_group + 1 < nav.data.length →
      (next_page nav).current_group = nav.current_group + 1 ∧
      ((∃ it, (nav.data.getD (nav.current_group + 1) [])[(next_page nav).current_order]? =
            some it ∧ viewedOrCompleted it = false ∧
          ∀ k it2, k < (next_page nav).current_order →
            (nav.data.getD (nav.current_group + 1) [])[k]? = some it2 →
            viewedOrCompleted it2 = true) ∨
       ((∀ (k : Nat) (it2 : Item),
            (nav.data.getD (nav.current_group + 1) [])[k]? = some it2 →
            viewedOrCompleted it2 = true) ∧
        (next_page nav).current_order = 0))) ∧
    (nav.data.length ≤ nav.current_group + 1 →
      (next_page nav).current_group = nav.current_group ∧
      (next_page nav).current_order = nav.current_order) ∧
    (0 < nav.current_group →
      (previous_page nav).current_group = nav.current_group - 1 ∧
      ((∃ it, (nav.data.getD (nav.current_group - 1) [])[(previous_page nav).current_order]? =
            some it ∧ viewedOrCompleted it = false ∧
          ∀ k it2, (previous_page nav).current_order < k →
            (nav.data.getD (nav.current_group - 1) [])[k]? = some it2 →
            viewedOrCompleted it2 = true) ∨
       ((∀ (k : Nat) (it2 : Item),
            (nav.data.getD (nav.current_group - 1) [])[k]? = some it2 →
            viewedOrCompleted it2 = true) ∧
        (previous_page nav).current_order =
          (nav.data.getD (nav.current_group - 1) []).length - 1))) ∧
    (nav.current_group = 0 →
      (previous_page nav).current_group = 0 ∧
      (previous_page nav).current_order = nav.current_order) := by
  refine ⟨?_, ?_, ?_, ?_⟩
  · intro hlt
    have hcond : (leave_current_item nav).current_group <
        (leave_current_item nav).data.length - 1 := by
      rw [leave_current_group, leave_data_length]
      omega
    have hgrp : (leave_current_item nav).data.getD (nav.current_group + 1) [] =
        nav.data.getD (nav.current_group + 1) [] :=
      leave_getD_ne nav _ (by omega)
    have hco : (next_page nav).current_order =
        firstUnclaimedIndex (nav.data.getD (nav.current_group + 1) []) := by
      simp only [next_page]
      rw [if_pos hcond]
      show firstUnclaimedIndex ((leave_current_item nav).data.getD
          (nav.current_group + 1) []) = _
      rw [hgrp]
    constructor
    · simp only [next_page]
      rw [if_pos hcond]
      rfl
    · rw [hco]
      exact firstUnclaimedIndex_spec _
  · intro hle
    have hcond : ¬ ((leave_current_item nav).current_group <
        (leave_current_item nav).data.length - 1) := by
      rw [leave_current_group, leave_data_length]
      omega
    constructor <;> (simp only [next_page]; rw [if_neg hcond]; rfl)
  · intro hpos
    have hcond : 0 < (leave_current_item nav).current_group := by
      rw [leave_current_group]
      omega
    have hgrp : (leave_current_item nav).data.getD (nav.current_group - 1) [] =
        nav.data.getD (nav.current_group - 1) [] :=
      leave_getD_ne nav _ (by omega)
    have hco : (previous_page nav).current_order =
        lastUnclaimedIndex (nav.data.getD (nav.current_group - 1) []) := by
      simp only [previous_page]
      rw [if_pos hcond]
      show lastUnclaimedIndex ((leave_current_item nav).data.getD
          (nav.current_group - 1) []) = _
      rw [hgrp]
    constructor
    · simp only [previous_page]
      rw [if_pos hcond]
      rfl
    · rw [hco]
      have hspec := lastUnclaimedIndex_spec (nav.data.getD (nav.current_group - 1) [])
      exact hspec
  · intro hzero
    have hcond : ¬ (0 < (leave_current_item nav).current_group) := by
      rw [leave_current_group]
      omega
    constructor
    · simp only [previous_page]
      rw [if_neg hcond]
      exact hzero
    · simp only [previous_page]
      rw [if_neg hcond]
      rfl

/-- Claim C2, counterexample to the original statement: in manual mode
(`auto_print = false`) `next_page` does not land at index 0 of the next
group — the skip loop runs anyway and lands on index 1, past the viewed
item. -/
theorem c2_counterexample :
    c2nav.auto_print = false ∧ (next_page c2nav).current_group = 1 ∧
    (next_page c2nav).current_order = 1 := by decide

/-- Witness for claim C2 at a concrete navigator. -/
theorem c2_page_crossing_witness :
    c6nav.current_group + 1 < c6nav.data.length ∧
    (next_page c6nav).current_group = c6nav.current_group + 1 :=
  ⟨by decide, ((c2_page_crossing c6nav).1 (by decide)).1⟩

/-- Claim C1, amended: in auto-advance mode the forward in-group search of
`next_item` selects the nearest item strictly after the current index whose
state is not `viewed` — which may be `unset` or `completed` — and only when
every in-bounds item after the current index is `viewed` does it fall back
to the nearest `viewed` item (necessarily index `current_order + 1`); it
reports no move exactly when no index strictly after the current one is in
bounds, so it never wraps past the group boundary.  (The original claim
said the first pass prefers `unset` items and never lands on a `completed`
item while an `unset` one lies further ahead; the first pass actually
accepts any non-`viewed` item, `completed` included — see the
counterexample.) -/
theorem c1_forward_search (nav : Nav) (h : nav.auto_print = true) :
    (∀ j, next_item_index nav = some j →
        nav.current_order < j ∧
        ∃ it, (currentGroup nav)[j]? = some it ∧
          ((it.state ≠ ItemState.viewed ∧
              ∀ k it2, nav.current_order < k → k < j →
                (currentGroup nav)[k]? = some it2 → it2.state = ItemState.viewed) ∨
            (it.state = ItemState.viewed ∧
              (∀ (k : Nat) (it2 : Item), nav.current_order < k →
                (currentGroup nav)[k]? = some it2 → it2.state = ItemState.viewed) ∧
              j = nav.current_order + 1))) ∧
    (next_item_index nav = none ↔
      (currentGroup nav).length ≤ nav.current_order + 1) := by
  have hnav : next_item_index nav =
      match scanUp (currentGroup nav) (fun it => it.state != ItemState.viewed)
          (nav.current_order + 1) with
      | some i => some i
      | none => scanUp (currentGroup nav) (fun it => it.state == ItemState.viewed)
          (nav.current_order + 1) := by
    unfold next_item_index
    simp only [h, Bool.not_true, Bool.false_eq_true, if_false]
  constructor
  · intro j hj
    rw [hnav] at hj
    cases h1 : scanUp (currentGroup nav) (fun it => it.state != ItemState.viewed)
        (nav.current_order + 1) with
    | some i =>
      rw [h1] at hj
      cases hj
      obtain ⟨hij, it, hit, hp, hmin⟩ := scanUp_some h1
      refine ⟨by omega, it, hit, Or.inl ⟨by simpa using hp, ?_⟩⟩
      intro k it2 hk hkj hgk
      have := hmin k it2 (by omega) hkj hgk
      simpa using this
    | none =>
      rw [h1] at hj
      dsimp only at hj
      have hall : ∀ (k : Nat) (it2 : Item), nav.current_order < k →
          (currentGroup nav)[k]? = some it2 → it2.state = ItemState.viewed := by
        intro k it2 hk hgk
        have := scanUp_none h1 k it2 (by omega) hgk
        simpa using this
      obtain ⟨hij, it, hit, hp, hmin⟩ := scanUp_some hj
      have hjlen := lt_length_of_getElem?_eq_some hit
      have hj1 : j = nav.current_order + 1 := by
        by_contra hne
        have hlt : nav.current_order + 1 < j := by omega
        have hlen2 : nav.current_order + 1 < (currentGroup nav).length := by omega
        have hsome : (currentGroup nav)[nav.current_order + 1]? =
            some (currentGroup nav)[nav.current_order + 1] :=
          List.getElem?_eq_getElem hlen2
        have hv := hall (nav.current_order + 1) _ (by omega) hsome
        have hf := hmin (nav.current_order + 1) _ (Nat.le_refl _) hlt hsome
        rw [hv] at hf
        simp at hf
      exact ⟨by omega, it, hit, Or.inr ⟨by simpa using hp, hall, hj1⟩⟩
  · constructor
    · intro hnone
      rw [hnav] at hnone
      cases h1 : scanUp (currentGroup nav) (fun it => it.state != ItemState.viewed)
          (nav.current_order + 1) with
      | some i =>
        rw [h1] at hnone
        exact Option.noConfusion hnone
      | none =>
        rw [h1] at hnone
        dsimp only at hnone
        by_contra hlen
        have hlen2 : nav.current_order + 1 < (currentGroup nav).length := by omega
        have hsome : (currentGroup nav)[nav.current_order + 1]? =
            some (currentGroup nav)[nav.current_order + 1] :=
          List.getElem?_eq_getElem hlen2
        have hv := scanUp_none h1 (nav.current_order + 1) _ (Nat.le_refl _) hsome
        have hw := scanUp_none hnone (nav.current_order + 1) _ (Nat.le_refl _) hsome
        simp only [bne_eq_false_iff_eq] at hv
        rw [hv] at hw
        simp at hw
    · intro hlen
      rw [hnav]
      have h0 : (currentGroup nav).length - (nav.current_order + 1) = 0 := by omega
      unfold scanUp
      rw [h0]
      rfl

/-- Claim C1, counterexample to the original statement: with auto-advance
on and the cursor at index 0, the forward search returns index 1, whose
item is `completed`, even though the `unset` item at index 2 lies strictly
after the cursor. -/
theorem c1_counterexample :
    c1nav.auto_print = true ∧
    next_item_index c1nav = some 1 ∧
    (itemAt c1nav.data 0 1).map Item.state = some ItemState.completed ∧
    (itemAt c1nav.data 0 2).map Item.state = some ItemState.unset ∧
    c1nav.current_order < 2 := by decide

/-- Witness for claim C1 at a concrete auto-advance navigator. -/
theorem c1_forward_search_witness :
    c1nav.auto_print = true ∧
    (next_item_index c1nav = none ↔
      (currentGroup c1nav).length ≤ c1nav.current_order + 1) :=
  ⟨rfl, (c1_forward_search c1nav rfl).2⟩

theorem rawData_nonempty {data : List (List RawItem)} {g0 : List RawItem} {it0 : RawItem}
    (h0 : data[0]? = some g0) (h00 : g0[0]? = some it0) :
    ¬ (data = [] ∨ data = [[]]) := by
  rintro (rfl | rfl)
  · exact Option.noConfusion h0
  · rw [show ([[]] : List (List RawItem))[0]? = some [] from rfl] at h0
    cases h0
    exact Option.noConfusion h00

theorem rawViewItem_snd_none {it : RawItem} (handler : String) (auto : Bool)
    {s : RawState} {hs : List String}
    (hst : it.state = RawField.val s) (hhs : it.handlers = RawField.val hs) :
    (rawViewItem handler auto it).2 = none := by
  by_cases ha : auto <;> by_cases hc : s = RawState.str "completed" <;>
    simp [rawViewItem, hhs, hst, ha, hc]

theorem rawViewItem_fst_handlers {it : RawItem} (handler : String) (auto : Bool)
    {s : RawState} {hs : List String}
    (hst : it.state = RawField.val s) (hhs : it.handlers = RawField.val hs) :
    (rawViewItem handler auto it).1.handlers =
      RawField.val (if handler ∈ hs then hs else hs ++ [handler]) := by
  by_cases ha : auto <;> by_cases hc : s = RawState.str "completed" <;>
    simp [rawViewItem, hhs, hst, ha, hc]

theorem rawViewItem_fst_idIsInt {it : RawItem} (handler : String) (auto : Bool)
    {s : RawState} {hs : List String}
    (hst : it.state = RawField.val s) (hhs : it.handlers = RawField.val hs) :
    (rawViewItem handler auto it).1.idIsInt = it.idIsInt := by
  by_cases ha : auto <;> by_cases hc : s = RawState.str "completed" <;>
    simp [rawViewItem, hhs, hst, ha, hc]

theorem rawViewItem_fst_state_auto {it : RawItem} (handler : String)
    {hs : List String} (hhs : it.handlers = RawField.val hs) :
    (rawViewItem handler true it).1.state = RawField.val (RawState.str "completed") := by
  simp [rawViewItem, hhs]

theorem rawViewItem_fst_state_manual_completed {it : RawItem} (handler : String)
    {hs : List String} (hst : it.state = RawField.val (RawState.str "completed"))
    (hhs : it.handlers = RawField.val hs) :
    (rawViewItem handler false it).1.state = it.state := by
  simp [rawViewItem, hhs, hst]

theorem rawViewItem_fst_state_manual_view {it : RawItem} (handler : String)
    {s : RawState} {hs : List String} (hst : it.state = RawField.val s)
    (hsc : s ≠ RawState.str "completed") (hhs : it.handlers = RawField.val hs) :
    (rawViewItem handler false it).1.state = RawField.val (RawState.str "view") := by
  simp [rawViewItem, hhs, hst, hsc]

theorem rawInit_fst {data : List (List RawItem)} {g0 : List RawItem} {it0 : RawItem}
    (handler : String) (auto : Bool)
    (h0 : data[0]? = some g0) (h00 : g0[0]? = some it0)
    (hview : (rawViewItem handler auto it0).2 = none) :
    (rawInit data handler auto).1 =
      listModify data 0
        (fun g => listModify g 0 (fun _ => (rawViewItem handler auto it0).1)) := by
  have hd1 := rawData_nonempty h0 h00
  have hg0 : g0 ≠ [] := by rintro rfl; exact Option.noConfusion h00
  unfold rawInit
  rw [if_neg hd1, h0]
  dsimp only
  rw [if_neg hg0, h00]
  dsimp only
  rw [hview]
  dsimp only
  split
  · rfl
  · split <;> rfl

theorem rawItemAt_listModify_zero {data : List (List RawItem)} {g0 : List RawItem}
    {it0 : RawItem} (h0 : data[0]? = some g0) (h00 : g0[0]? = some it0)
    (f : RawItem → RawItem) :
    rawItemAt (listModify data 0 (fun g => listModify g 0 f)) 0 0 = some (f it0) := by
  unfold rawItemAt
  rw [listModify_getElem?, if_pos rfl, h0]
  dsimp only [Option.map_some']
  rw [listModify_getElem?, if_pos rfl, h00]
  rfl

/-- Claim C9: construction is not atomic with respect to validation — when
item `(0,0)` has a `state` key and a list-typed `handlers` field, the
constructor appends the handler to its `handlers` and sets its state
(`completed` under auto-advance, otherwise `view` unless already
`completed`) before the validation loop runs, so a constructor call that
raises an error still leaves item `(0,0)` mutated in the returned data. -/
theorem c9_mutation_before_validation (data : List (List RawItem))
    (handler : String) (auto : Bool) (g0 : List RawItem) (it0 : RawItem)
    (h0 : data[0]? = some g0) (h00 : g0[0]? = some it0)
    (hst : ∃ s, it0.state = RawField.val s)
    (hhs : ∃ hs0, it0.handlers = RawField.val hs0)
    (herr : (rawInit data handler auto).2.isSome) :
    rawItemAt (rawInit data handler auto).1 0 0 =
      some (rawViewItem handler auto it0).1 ∧
    ∃ hs0, it0.handlers = RawField.val hs0 ∧
      (rawViewItem handler auto it0).1.handlers =
        RawField.val (if handler ∈ hs0 then hs0 else hs0 ++ [handler]) ∧
      (auto = true → (rawViewItem handler auto it0).1.state =
        RawField.val (RawState.str "completed")) ∧
      (auto = false → it0.state = RawField.val (RawState.str "completed") →
        (rawViewItem handler auto it0).1.state = it0.state) ∧
      (auto = false → it0.state ≠ RawField.val (RawState.str "completed") →
        (rawViewItem handler auto it0).1.state =
          RawField.val (RawState.str "view")) := by
  obtain ⟨s0, hs0eq⟩ := hst
  obtain ⟨hs1, hh1⟩ := hhs
  have hview := rawViewItem_snd_none handler auto hs0eq hh1
  constructor
  · rw [rawInit_fst handler auto h0 h00 hview]
    exact rawItemAt_listModify_zero h0 h00 _
  · refine ⟨hs1, hh1, rawViewItem_fst_handlers handler auto hs0eq hh1, ?_, ?_, ?_⟩
    · intro ha
      subst ha
      exact rawViewItem_fst_state_auto handler hh1
    · intro ha hc
      subst ha
      exact rawViewItem_fst_state_manual_completed handler hc hh1
    · intro ha hc
      subst ha
      have hsc : s0 ≠ RawState.str "completed" := by
        intro he
        rw [he] at hs0eq
        exact hc hs0eq
      exact rawViewItem_fst_state_manual_view handler hs0eq hsc hh1

/-- Witness for claim C9: on `c9data` the constructor raises a validation
error (the second group holds a bad state string) yet item `(0,0)` of the
returned data is the mutated original. -/
theorem c9_mutation_before_validation_witness :
    (rawInit c9data "h" false).2.isSome ∧
    rawItemAt (rawInit c9data "h" false).1 0 0 =
      some (rawViewItem "h" false
        ⟨true, RawField.val RawState.null, RawField.val []⟩).1 :=
  ⟨by decide,
   (c9_mutation_before_validation c9data "h" false
      [⟨true, RawField.val RawState.null, RawField.val []⟩]
      ⟨true, RawField.val RawState.null, RawField.val []⟩
      (by decide) (by decide) ⟨RawState.null, rfl⟩ ⟨[], rfl⟩ (by decide)).1⟩

theorem passesValidation_fields {it : RawItem} (hp : passesValidation it = true) :
    it.idIsInt = true ∧
    (it.state = RawField.val RawState.null ∨
     it.state = RawField.val (RawState.str "view") ∨
     it.state = RawField.val (RawState.str "completed")) ∧
    ∃ hs, it.handlers = RawField.val hs := by
  unfold passesValidation at hp
  simp only [Bool.and_eq_true, Bool.or_eq_true, beq_iff_eq] at hp
  obtain ⟨⟨hid, hstate⟩, hh⟩ := hp
  refine ⟨hid, by tauto, ?_⟩
  cases hhs : it.handlers with
  | val hs => exact ⟨hs, rfl⟩
  | absent => rw [hhs] at hh; exact Bool.noConfusion hh
  | malformed => rw [hhs] at hh; exact Bool.noConfusion hh

theorem validateItem_none {it : RawItem} (hp : passesValidation it = true) :
    validateItem it = none := by
  obtain ⟨hid, hstate, hs, hhs⟩ := passesValidation_fields hp
  unfold validateItem
  rcases hstate with h1 | h1 | h1 <;> simp [h1, hhs, hid]

theorem passesValidation_of_fields {it : RawItem} (hid : it.idIsInt = true)
    (hstate : it.state = RawField.val RawState.null ∨
      it.state = RawField.val (RawState.str "view") ∨
      it.state = RawField.val (RawState.str "completed"))
    {hs : List String} (hhs : it.handlers = RawField.val hs) :
    passesValidation it = true := by
  unfold passesValidation
  simp only [Bool.and_eq_true, Bool.or_eq_true, beq_iff_eq]
  refine ⟨⟨hid, by tauto⟩, ?_⟩
  rw [hhs]

theorem rawViewItem_passes {it : RawItem} (handler : String) (auto : Bool)
    (hp : passesValidation it = true) :
    passesValidation (rawViewItem handler auto it).1 = true := by
  obtain ⟨hid, hstate, hs, hhs⟩ := passesValidation_fields hp
  have hst : ∃ s, it.state = RawField.val s := by
    rcases hstate with h1 | h1 | h1 <;> exact ⟨_, h1⟩
  obtain ⟨s0, hs0eq⟩ := hst
  apply passesValidation_of_fields
  · rw [rawViewItem_fst_idIsInt handler auto hs0eq hhs]
    exact hid
  · by_cases ha : auto
    · subst ha
      rw [rawViewItem_fst_state_auto handler hhs]
      tauto
    · rw [Bool.not_eq_true] at ha
      subst ha
      by_cases hc : s0 = RawState.str "completed"
      · subst hc
        rw [rawViewItem_fst_state_manual_completed handler hs0eq hhs]
        exact hstate
      · rw [rawViewItem_fst_state_manual_view handler hs0eq hc hhs]
        tauto
  · exact rawViewItem_fst_handlers handler auto hs0eq hhs

theorem mem_listModify {α : Type} {x : α} :
    ∀ {l : List α} {n : Nat} {f : α → α}, x ∈ listModify l n f →
      x ∈ l ∨ ∃ y ∈ l, x = f y := by
  intro l
  induction l with
  | nil => intro n f h; exact absurd h (by simp [listModify])
  | cons a as ih =>
    intro n f h
    cases n with
    | zero =>
      simp only [listModify] at h
      rcases List.mem_cons.mp h with he | hm
      · exact Or.inr ⟨a, List.mem_cons_self a as, he⟩
      · exact Or.inl (List.mem_cons_of_mem _ hm)
    | succ m =>
      simp only [listModify] at h
      rcases List.mem_cons.mp h with he | hm
      · exact Or.inl (by rw [he]; exact List.mem_cons_self a as)
      · rcases ih hm with h1 | ⟨y, hy, he2⟩
        · exact Or.inl (List.mem_cons_of_mem _ h1)
        · exact Or.inr ⟨y, List.mem_cons_of_mem _ hy, he2⟩

theorem validateGroup_none {g : List RawItem}
    (h : ∀ it ∈ g, validateItem it = none) : validateGroup g = none := by
  induction g with
  | nil => rfl
  | cons a as ih =>
    unfold validateGroup
    rw [h a (List.mem_cons_self a as)]
    exact ih (fun it hit => h it (List.mem_cons_of_mem a hit))

theorem validateData_none {d : List (List RawItem)}
    (h : ∀ g ∈ d, validateGroup g = none) : validateData d = none := by
  induction d with
  | nil => rfl
  | cons a as ih =>
    unfold validateData
    rw [h a (List.mem_cons_self a as)]
    exact ih (fun g hg => h g (List.mem_cons_of_mem a hg))

/-- Claim C10: the constructor validation does not check the item-state
invariant — construction succeeds without error on any dataset whose items
pass the per-item shape checks, even when it contains an item whose state
is `None` with a non-empty handlers list, or whose state is `view` with an
empty handlers list. -/
theorem c10_no_state_invariant_check (data : List (List RawItem))
    (handler : String) (auto : Bool) (g0 : List RawItem) (it0 : RawItem)
    (h0 : data[0]? = some g0) (h00 : g0[0]? = some it0)
    (hwf : ∀ g ∈ data, ∀ it ∈ g, passesValidation it = true)
    (hanom : ∃ g ∈ data, ∃ it ∈ g, violatesStateInvariant it = true) :
    (rawInit data handler auto).2 = none := by
  have hd1 := rawData_nonempty h0 h00
  have hg0 : g0 ≠ [] := by rintro rfl; exact Option.noConfusion h00
  have hp0 : passesValidation it0 = true :=
    hwf g0 (mem_of_getElem?_eq_some h0) it0 (mem_of_getElem?_eq_some h00)
  obtain ⟨hid, hstate, hs, hhs⟩ := passesValidation_fields hp0
  have hst : ∃ s, it0.state = RawField.val s := by
    rcases hstate with h1 | h1 | h1 <;> exact ⟨_, h1⟩
  obtain ⟨s0, hs0eq⟩ := hst
  have hview := rawViewItem_snd_none handler auto hs0eq hhs
  have hallpass : ∀ g ∈ listModify data 0
      (fun g => listModify g 0 (fun _ => (rawViewItem handler auto it0).1)),
      ∀ it ∈ g, passesValidation it = true := by
    intro g hg it hit
    rcases mem_listModify hg with hg1 | ⟨g2, hg2, hge⟩
    · exact hwf g hg1 it hit
    · rw [hge] at hit
      rcases mem_listModify hit with hit1 | ⟨y, hy, hye⟩
      · exact hwf g2 hg2 it hit1
      · rw [hye]
        exact rawViewItem_passes handler auto hp0
  have hval : validateData (listModify data 0
      (fun g => listModify g 0 (fun _ => (rawViewItem handler auto it0).1))) = none :=
    validateData_none (fun g hg =>
      validateGroup_none (fun it hit => validateItem_none (hallpass g hg it hit)))
  have hlen : (listModify data 0
      (fun g => listModify g 0 (fun _ => (rawViewItem handler auto it0).1))).length ≠ 0 := by
    rw [listModify_length]
    intro hz
    rcases data with _ | _
    · exact Option.noConfusion h0
    · exact Nat.noConfusion hz
  unfold rawInit
  rw [if_neg hd1, h0]
  dsimp only
  rw [if_neg hg0, h00]
  dsimp only
  rw [hview]
  dsimp only
  rw [if_neg hlen, hval]

/-- Witness for claim C10: on `c10data`, which contains an item with state
`None` and non-empty handlers and an item with state `view` and empty
handlers, construction succeeds without error. -/
theorem c10_no_state_invariant_check_witness :
    (∃ g ∈ c10data, ∃ it ∈ g, violatesStateInvariant it = true) ∧
    (rawInit c10data "h" false).2 = none :=
  ⟨by decide,
   c10_no_state_invariant_check c10data "h" false
     [⟨true, RawField.val RawState.null, RawField.val []⟩,
      ⟨true, RawField.val RawState.null, RawField.val ["X"]⟩,
      ⟨true, RawField.val (RawState.str "view"), RawField.val []⟩]
     ⟨true, RawField.val RawState.null, RawField.val []⟩
     (by decide) (by decide) (by decide) (by decide)⟩
